import Mathlib

/-!
Shallow embedding of the torchrl exploration wrappers
(`src/torchrl/modules/td_module/exploration.py`) and recorders
(`src/torchrl/record/recorder.py`).

Conventions of the embedding:
* Python floats are modelled as exact rationals (`ℚ`) for the epsilon-decay
  bookkeeping and as real numbers (`ℝ`) for the Ornstein-Uhlenbeck process,
  whose recurrence involves `np.sqrt`.
* A batched tensor carrying one scalar per batch element and action dimension
  is modelled as a function `B → A → ℝ` (`B` = batch index, `A` = action-dim
  index); the `[batch, 1]` step-count tensor is a function `B → ℕ`.
* Fallible Python code (a `raise`) is modelled with `Except String`.
* The external pieces (the wrapped policy, the uniform / normal RNG draws,
  the action-space `spec.rand` sample, the TensorBoard writer) enter as
  explicit arguments; the code under `src/` never inspects their internals.
-/

/-! ### Epsilon-greedy wrapper (`EGreedyWrapper`, exploration.py lines 25-106) -/

/-- Error message of the `eps_end > eps_init` construction check
(the Python message also interpolates the offending values in the OU case). -/
def epsOrderMsg : String := "eps should decrease over time or be constant"

/-- Embeds the state of `EGreedyWrapper`: the three registered buffers
`eps_init`, `eps_end`, `eps` (1-element tensors, modelled as their scalar
value) and the integer `annealing_num_steps`. -/
structure EGreedyWrapper where
  eps_init : ℚ
  eps_end : ℚ
  annealing_num_steps : ℤ
  eps : ℚ

/-- `EGreedyWrapper.__init__` (lines 61-74): registers the buffers, raises
`RuntimeError` when `eps_end > eps_init`, and starts `eps` at `eps_init`. -/
def EGreedyWrapper.init (eps_init eps_end : ℚ) (annealing_num_steps : ℤ) :
    Except String EGreedyWrapper :=
  if eps_init < eps_end then Except.error epsOrderMsg
  else Except.ok ⟨eps_init, eps_end, annealing_num_steps, eps_init⟩

/-- One iteration of the loop body of `EGreedyWrapper.step` (lines 84-90):
`eps = max(eps_end, eps - (eps_init - eps_end) / annealing_num_steps)`. -/
def EGreedyWrapper.stepOnce (w : EGreedyWrapper) : EGreedyWrapper :=
  { w with
    eps := max w.eps_end (w.eps - (w.eps_init - w.eps_end) / (w.annealing_num_steps : ℚ)) }

/-- `EGreedyWrapper.step(frames)` (lines 76-90): the loop body applied
`frames` times. -/
def EGreedyWrapper.step (w : EGreedyWrapper) (frames : ℕ) : EGreedyWrapper :=
  EGreedyWrapper.stepOnce^[frames] w

/-- `EGreedyWrapper.forward` (lines 92-106).  The wrapped policy's output is
the argument `policyAction` (the value under `out_keys[0]` after
`td_module.forward`), `u b` is the uniform draw `torch.rand(...)` for batch
element `b`, and `specSample` is the tensor returned by `spec.rand`.  The
per-element mask `cond` is expanded to the right over the action dimensions,
exactly as `expand_as_right` does. -/
def EGreedyWrapper.forward {B A : Type} (w : EGreedyWrapper) (mode : Option String)
    (policyAction : B → A → ℚ) (u : B → ℚ) (specSample : B → A → ℚ) : B → A → ℚ :=
  if mode = some "random" ∨ mode = none then
    fun b a =>
      (if u b < w.eps then (1 : ℚ) else 0) * specSample b a
        + (1 - (if u b < w.eps then (1 : ℚ) else 0)) * policyAction b a
  else policyAction

/-! ### OU wrapper epsilon bookkeeping (`OrnsteinUhlenbeckProcessWrapper`,
exploration.py lines 109-242).  The embedded wrapper state carries the
epsilon buffers and the assembled `out_keys`; the inner
`_OrnsteinUhlenbeckProcess` (whose construction never raises) is embedded
separately below over `ℝ`. -/

/-- The `_ou_prev_noise` key written by the OU process. -/
def ouNoiseKey : String := "_ou_prev_noise"

/-- The `_ou_steps` key written by the OU process. -/
def ouStepsKey : String := "_ou_steps"

/-- Embeds the state of `OrnsteinUhlenbeckProcessWrapper` relevant to
construction and `step`. -/
structure OrnsteinUhlenbeckProcessWrapper where
  eps_init : ℚ
  eps_end : ℚ
  annealing_num_steps : ℤ
  eps : ℚ
  out_keys : List String
  safe : Bool

/-- `OrnsteinUhlenbeckProcessWrapper.__init__` (lines 169-213): constructs the
(never-failing) OU process, raises `ValueError` when `eps_end > eps_init`,
appends the two OU bookkeeping keys to the policy's `out_keys` and raises
`RuntimeError` on duplicated output keys. -/
def OrnsteinUhlenbeckProcessWrapper.init (policyOutKeys : List String)
    (eps_init eps_end : ℚ) (annealing_num_steps : ℤ) (safe : Bool) :
    Except String OrnsteinUhlenbeckProcessWrapper :=
  if eps_init < eps_end then Except.error epsOrderMsg
  else
    let out_keys := policyOutKeys ++ [ouNoiseKey, ouStepsKey]
    if out_keys.Nodup then
      Except.ok ⟨eps_init, eps_end, annealing_num_steps, eps_init, out_keys, safe⟩
    else Except.error "Got multiple identical output keys"

/-- One iteration of the loop body of
`OrnsteinUhlenbeckProcessWrapper.step` (lines 222-236): same update as the
epsilon-greedy wrapper, but raising `ValueError` when
`annealing_num_steps <= 0`. -/
def OrnsteinUhlenbeckProcessWrapper.stepOnce (w : OrnsteinUhlenbeckProcessWrapper) :
    Except String OrnsteinUhlenbeckProcessWrapper :=
  if 0 < w.annealing_num_steps then
    Except.ok
      { w with
        eps := max w.eps_end (w.eps - (w.eps_init - w.eps_end) / (w.annealing_num_steps : ℚ)) }
  else
    Except.error "step() called with a non-positive annealing_num_steps"

/-- `OrnsteinUhlenbeckProcessWrapper.step(frames)` (lines 215-236). -/
def OrnsteinUhlenbeckProcessWrapper.step (w : OrnsteinUhlenbeckProcessWrapper) :
    ℕ → Except String OrnsteinUhlenbeckProcessWrapper
  | 0 => Except.ok w
  | frames + 1 => w.stepOnce.bind fun w1 => w1.step frames

/-! ### The OU process itself (`_OrnsteinUhlenbeckProcess`,
exploration.py lines 246-325), over `ℝ` since its update uses `np.sqrt`. -/

/-- Embeds `_OrnsteinUhlenbeckProcess` after `__init__` (lines 247-277):
the scalar parameters, the derived line coefficients `m`, `c` and the
effective `sigma_min`, and the tensordict keys.  `x0` defaults to `0.0`. -/
structure OrnsteinUhlenbeckProcess where
  theta : ℝ
  mu : ℝ
  sigma : ℝ
  dt : ℝ
  x0 : ℝ
  m : ℝ
  c : ℝ
  sigma_min : ℝ
  key : String
  noise_key : String
  steps_key : String

/-- `_OrnsteinUhlenbeckProcess.__init__` (lines 247-277).  With `sigma_min`
given: `m = -(sigma - sigma_min) / n_steps_annealing`, `c = sigma`; without:
`m = 0`, `c = sigma`, and `sigma_min` falls back to `sigma`. -/
noncomputable def OrnsteinUhlenbeckProcess.init (theta mu sigma dt : ℝ)
    (x0 : Option ℝ) (sigma_min : Option ℝ) (n_steps_annealing : ℤ) (key : String) :
    OrnsteinUhlenbeckProcess :=
  match sigma_min with
  | some s =>
      { theta := theta, mu := mu, sigma := sigma, dt := dt, x0 := x0.getD 0,
        m := -(sigma - s) / (n_steps_annealing : ℝ), c := sigma, sigma_min := s,
        key := key, noise_key := ouNoiseKey, steps_key := ouStepsKey }
  | none =>
      { theta := theta, mu := mu, sigma := sigma, dt := dt, x0 := x0.getD 0,
        m := 0, c := sigma, sigma_min := sigma,
        key := key, noise_key := ouNoiseKey, steps_key := ouStepsKey }

/-- `_OrnsteinUhlenbeckProcess.current_sigma` (lines 323-325):
`(m * n_steps + c).clamp_min(sigma_min)`, applied elementwise to the integer
step count of one batch element. -/
noncomputable def OrnsteinUhlenbeckProcess.current_sigma (p : OrnsteinUhlenbeckProcess)
    (n_steps : ℕ) : ℝ :=
  max p.sigma_min (p.m * (n_steps : ℝ) + p.c)

/-- The slice of a tensordict that `add_sample` touches: the action tensor
under `p.key` and the two optional OU bookkeeping entries (absent entries are
`none`, as in a tensordict lacking those keys).  `B` indexes batch elements,
`A` indexes action dimensions; the step-count tensor of shape `[batch, 1]`
holds one natural number per batch element. -/
structure OUTensorDict (B A : Type) where
  action : B → A → ℝ
  ouNoise : Option (B → A → ℝ)
  ouSteps : Option (B → ℕ)

/-- `_OrnsteinUhlenbeckProcess._make_noise_pair` (lines 287-299): writes a
zero noise tensor of the action's shape and a zero `[batch, 1]` long tensor
of step counts into the tensordict. -/
def OrnsteinUhlenbeckProcess._make_noise_pair {B A : Type}
    (_p : OrnsteinUhlenbeckProcess) (tensordict : OUTensorDict B A) : OUTensorDict B A :=
  { tensordict with
    ouNoise := some fun _ _ => 0
    ouSteps := some fun _ => 0 }

/-- `_OrnsteinUhlenbeckProcess.add_sample` (lines 301-321).  The standard
normal draw `torch.randn_like(prev_noise)` is the explicit argument `draw`.
The noise pair is lazily created when the noise key is missing; a tensordict
that carries the noise key but not the steps key would make Python's
`tensordict.get` raise, modelled by the `KeyError` branch. -/
noncomputable def OrnsteinUhlenbeckProcess.add_sample {B A : Type}
    (p : OrnsteinUhlenbeckProcess) (tensordict : OUTensorDict B A) (eps : ℝ)
    (draw : B → A → ℝ) : Except String (OUTensorDict B A) :=
  let td := if tensordict.ouNoise.isNone then p._make_noise_pair tensordict else tensordict
  match td.ouNoise, td.ouSteps with
  | some prev0, some n_steps =>
      let prev_noise : B → A → ℝ := fun b a => prev0 b a + p.x0
      let noise : B → A → ℝ := fun b a =>
        prev_noise b a + p.theta * (p.mu - prev_noise b a) * p.dt
          + p.current_sigma (n_steps b) * Real.sqrt p.dt * draw b a
      Except.ok
        { action := fun b a => td.action b a + eps * noise b a
          ouNoise := some fun b a => noise b a - p.x0
          ouSteps := some fun b => n_steps b + 1 }
  | _, _ => Except.error "KeyError"

/-! ### Video recorder (`VideoRecorder`, recorder.py lines 16-99).
An observation tensor is modelled by its shape together with an abstract
content identifier (the recorder never inspects the cell values). -/

/-- An observation tensor: its `torch.Size` (a list of dimension sizes) and an
abstract content id distinguishing different tensors of equal shape. -/
structure Observation where
  shape : List ℕ
  data : ℕ

/-- A frame as stored in `VideoRecorder.obs`: either
`observation.unsqueeze(-3).cpu().to(torch.uint8)` (the 2-D grayscale branch)
or `observation.permute(2, 0, 1).cpu().to(torch.uint8)` (the `[H, W, 3]`
branch). -/
inductive StoredFrame where
  | unsqueezed (o : Observation) : StoredFrame
  | permuted (o : Observation) : StoredFrame

/-- Embeds the mutable state of `VideoRecorder` (lines 32-56); the
TensorBoard writer and the `video_kwargs` are external and carried only
through `dump`'s output. -/
structure VideoRecorder where
  iter : ℕ
  skip : ℕ
  tag : String
  count : ℕ
  obs : List StoredFrame

/-- `VideoRecorder.__init__` (lines 32-56): `iter = 0`, `count = 0`, empty
buffer.  The `moviepy` import check concerns an external dependency assumed
available. -/
def VideoRecorder.init (tag : String) (skip : ℕ) : VideoRecorder :=
  ⟨0, skip, tag, 0, []⟩

/-- `VideoRecorder._apply` (lines 58-79).  `observation.shape[-1]` on an
empty shape raises `IndexError`; the first check raises `RuntimeError` unless
the last dimension is 3 or the tensor is 2-D; on buffering steps
(`count % skip == 0`) a 2-D frame is unsqueezed and any other frame must be
exactly 3-D (its last dimension is already 3 here, so the final check can
never fire).  The original observation is returned.  (Python's `%` would
raise `ZeroDivisionError` for `skip = 0`; Lean's `% 0` is total, so theorems
about the non-raising path assume `0 < skip`.) -/
def VideoRecorder._apply (r : VideoRecorder) (observation : Observation) :
    Except String (VideoRecorder × Observation) :=
  match observation.shape.getLast? with
  | none => Except.error "IndexError: index -1 out of range"
  | some last =>
    if ¬ (last = 3 ∨ observation.shape.length = 2) then
      Except.error "Invalid observation shape"
    else
      let count := r.count + 1
      if count % r.skip = 0 then
        if observation.shape.length = 2 then
          Except.ok
            ({ r with count := count, obs := r.obs ++ [StoredFrame.unsqueezed observation] },
              observation)
        else if observation.shape.length ≠ 3 then
          Except.error "observation is expected to have 3 dimensions"
        else if last ≠ 3 then
          Except.error "observation_trsf is expected to have 3 dimensions"
        else
          Except.ok
            ({ r with count := count, obs := r.obs ++ [StoredFrame.permuted observation] },
              observation)
      else Except.ok ({ r with count := count }, observation)

/-- Feeding the same observation `N` times through `VideoRecorder._apply`,
stopping at the first raise. -/
def VideoRecorder.feed (r : VideoRecorder) (o : Observation) :
    ℕ → Except String VideoRecorder
  | 0 => Except.ok r
  | n + 1 =>
    match r._apply o with
    | Except.error e => Except.error e
    | Except.ok ro => ro.1.feed o n

/-- The `writer.add_video` call made by `VideoRecorder.dump`: the tag, the
stacked clip and the `global_step`. -/
structure VideoDump where
  tag : String
  vid : List StoredFrame
  global_step : ℕ

/-- `VideoRecorder.dump` (lines 81-99): builds the tag from the optional
suffix, stacks the buffer (`torch.stack` raises on an empty list), hands the
clip to the writer, then increments `iter` and resets `count` and the
buffer. -/
def VideoRecorder.dump (r : VideoRecorder) (suffix : Option String) :
    Except String (VideoRecorder × VideoDump) :=
  let tag :=
    match suffix with
    | none => r.tag
    | some s => r.tag ++ "_" ++ s
  match r.obs with
  | [] => Except.error "stack expects a non-empty TensorList"
  | o :: rest =>
    Except.ok ({ r with iter := r.iter + 1, count := 0, obs := [] }, ⟨tag, o :: rest, r.iter⟩)

/-! ### TensorDict recorder (`TensorDictRecorder`, recorder.py lines 102-161).
A buffered snapshot is abstracted to a content id (the `select`/`clone` of
the chosen keys does not matter to the claims). -/

/-- Embeds the state of `TensorDictRecorder`.  Its `__init__`
(lines 118-134) stores the file name stem in `out_file_base` and never
assigns a `tag` attribute — and the base `Transform` class does not provide
one either (`VideoRecorder` has to set its own `tag`), so the `tag` slot is
modelled as an `Option` that construction leaves at `none`, a lookup of which
raises `AttributeError`. -/
structure TensorDictRecorder where
  iter : ℕ
  out_file_base : String
  td : List ℕ
  skip_reset : Bool
  skip : ℕ
  count : ℕ
  keys : List String
  tag : Option String

/-- `TensorDictRecorder.__init__` (lines 118-134). -/
def TensorDictRecorder.init (out_file_base : String) (skip_reset : Bool) (skip : ℕ)
    (keys : List String) : TensorDictRecorder :=
  ⟨0, out_file_base, [], skip_reset, skip, 0, keys, none⟩

/-- `TensorDictRecorder._call` (lines 136-143): every `skip`-th call buffers
the (key-selected clone of the) tensordict and returns the input. -/
def TensorDictRecorder._call (r : TensorDictRecorder) (td : ℕ) :
    TensorDictRecorder × ℕ :=
  let count := r.count + 1
  if count % r.skip = 0 then ({ r with count := count, td := r.td ++ [td] }, td)
  else ({ r with count := count }, td)

/-- The `torch.save` call made by `TensorDictRecorder.dump`. -/
structure SavedTensorDictFile where
  filename : String
  contents : List ℕ

/-- `TensorDictRecorder.dump` (lines 145-161): reads `self.tag` (which
`__init__` never set — an `AttributeError` in Python), appends the optional
suffix, drops the first snapshot when `skip_reset`, stacks the rest
(`torch.stack` raises on an empty list), saves to `f"{tag}_tensordict.t"`,
then resets `count` and the buffer. -/
def TensorDictRecorder.dump (r : TensorDictRecorder) (suffix : Option String) :
    Except String (TensorDictRecorder × SavedTensorDictFile) :=
  match r.tag with
  | none => Except.error "AttributeError: TensorDictRecorder object has no attribute tag"
  | some t =>
    let tag :=
      match suffix with
      | none => t
      | some s => t ++ "_" ++ s
    let td := if r.skip_reset then r.td.drop 1 else r.td
    match td with
    | [] => Except.error "stack expects a non-empty TensorList"
    | x :: rest =>
      Except.ok
        ({ r with iter := r.iter + 1, count := 0, td := [] },
          ⟨tag ++ "_tensordict.t", x :: rest⟩)

/-! ### Helper lemmas for the epsilon-decay closed form -/

/-- Closed form of `n` iterations of `y ↦ max ee (y - d)` from a start value
`x ≥ ee`, for a non-negative decrement `d`. -/
lemma iterate_max_sub_closed (ee d x : ℚ) (hd : 0 ≤ d) (hx : ee ≤ x) :
    ∀ n : ℕ, (fun y => max ee (y - d))^[n] x = max ee (x - n * d) := by
  intro n
  induction n with
  | zero => simp [max_eq_right hx]
  | succ n ih =>
    rw [Function.iterate_succ_apply', ih]
    rcases le_total ee (x - n * d) with h | h
    · rw [max_eq_right h]
      have hcast : x - ((n : ℚ) + 1) * d = x - n * d - d := by ring
      push_cast
      rw [hcast]
    · rw [max_eq_left h]
      have h1 : max ee (ee - d) = ee := max_eq_left (by linarith)
      have h2 : max ee (x - ((n : ℚ) + 1) * d) = ee := max_eq_left (by nlinarith)
      push_cast
      rw [h1, h2]

/-- `EGreedyWrapper.step` only rewrites the `eps` buffer, iterating the
scalar decay map. -/
lemma EGreedyWrapper.step_eps_iterate (w : EGreedyWrapper) (frames : ℕ) :
    w.step frames =
      { w with
        eps := (fun y =>
          max w.eps_end (y - (w.eps_init - w.eps_end) / (w.annealing_num_steps : ℚ)))^[frames]
            w.eps } := by
  induction frames with
  | zero => rfl
  | succ n ih =>
    rw [EGreedyWrapper.step, Function.iterate_succ_apply',
      ← EGreedyWrapper.step, ih, Function.iterate_succ_apply']
    rfl

/-- `OrnsteinUhlenbeckProcessWrapper.step` succeeds under a positive
annealing horizon and iterates the same scalar decay map. -/
lemma OrnsteinUhlenbeckProcessWrapper.step_ok_iterate (w : OrnsteinUhlenbeckProcessWrapper)
    (hA : 0 < w.annealing_num_steps) (frames : ℕ) :
    w.step frames = Except.ok
      { w with
        eps := (fun y =>
          max w.eps_end (y - (w.eps_init - w.eps_end) / (w.annealing_num_steps : ℚ)))^[frames]
            w.eps } := by
  induction frames generalizing w with
  | zero =>
    rw [Function.iterate_zero]
    rfl
  | succ n ih =>
    have hbind : ∀ (w1 : OrnsteinUhlenbeckProcessWrapper)
        (f : OrnsteinUhlenbeckProcessWrapper → Except String OrnsteinUhlenbeckProcessWrapper),
        (Except.ok (ε := String) w1).bind f = f w1 := fun _ _ => rfl
    rw [OrnsteinUhlenbeckProcessWrapper.step, OrnsteinUhlenbeckProcessWrapper.stepOnce,
      if_pos hA, hbind]
    rw [ih { w with
        eps := max w.eps_end (w.eps - (w.eps_init - w.eps_end) / (w.annealing_num_steps : ℚ)) } hA,
      Function.iterate_succ_apply]

/-- The epsilon after `f` decay steps of a freshly constructed wrapper. -/
lemma egreedy_fresh_step_eps (ei ee : ℚ) (A : ℤ) (x : ℚ) (f : ℕ) :
    ((⟨ei, ee, A, x⟩ : EGreedyWrapper).step f).eps
      = (fun y => max ee (y - (ei - ee) / (A : ℚ)))^[f] x := by
  rw [EGreedyWrapper.step_eps_iterate]

/-- Basic facts about the decrement `(ei - ee) / A`. -/
lemma decay_decrement_nonneg (ei ee : ℚ) (A : ℤ) (hle : ee ≤ ei) (hA : 0 < A) :
    0 ≤ (ei - ee) / (A : ℚ) := by
  apply div_nonneg (by linarith)
  exact_mod_cast hA.le

/-- Beyond the annealing horizon the linear part has reached `ee`. -/
lemma decay_past_horizon (ei ee : ℚ) (A : ℤ) (f : ℕ) (hle : ee ≤ ei) (hA : 0 < A)
    (hf : (A : ℚ) ≤ (f : ℚ)) :
    max ee (ei - f * ((ei - ee) / (A : ℚ))) = ee := by
  have hA0 : (A : ℚ) ≠ 0 := by
    exact_mod_cast hA.ne.symm
  have hAd : (A : ℚ) * ((ei - ee) / (A : ℚ)) = ei - ee := by
    field_simp
  have hd := decay_decrement_nonneg ei ee A hle hA
  have : (A : ℚ) * ((ei - ee) / (A : ℚ)) ≤ (f : ℚ) * ((ei - ee) / (A : ℚ)) :=
    mul_le_mul_of_nonneg_right hf hd
  apply max_eq_left
  rw [hAd] at this
  linarith

/-- Claim C1: for either wrapper constructed with `eps_end ≤ eps_init` and a
positive annealing horizon, after `step(frames)` the current epsilon equals
`max(eps_end, eps_init - frames * (eps_init - eps_end) / annealing_steps)` —
i.e. it decreases by `(eps_init - eps_end) / annealing_steps` per frame until
clamped at `eps_end` — hence lies in `[eps_end, eps_init]`, is non-increasing
in `frames`, and once `frames` reaches the annealing horizon the epsilon sits
at `eps_end` and any further `step` call is a no-op on it. -/
theorem c1_step_linear_decay (ei ee : ℚ) (A : ℤ) (f g : ℕ)
    (hle : ee ≤ ei) (hA : 0 < A) :
    (((⟨ei, ee, A, ei⟩ : EGreedyWrapper).step f).eps
        = max ee (ei - f * ((ei - ee) / (A : ℚ)))
      ∧ ee ≤ ((⟨ei, ee, A, ei⟩ : EGreedyWrapper).step f).eps
      ∧ ((⟨ei, ee, A, ei⟩ : EGreedyWrapper).step f).eps ≤ ei
      ∧ ((⟨ei, ee, A, ei⟩ : EGreedyWrapper).step (f + 1)).eps
          ≤ ((⟨ei, ee, A, ei⟩ : EGreedyWrapper).step f).eps
      ∧ ((A : ℚ) ≤ (f : ℚ) →
          ((((⟨ei, ee, A, ei⟩ : EGreedyWrapper).step f).step g).eps = ee)))
    ∧ (∃ w, (⟨ei, ee, A, ei, ["action", ouNoiseKey, ouStepsKey], true⟩ :
          OrnsteinUhlenbeckProcessWrapper).step f = Except.ok w
        ∧ w.eps = max ee (ei - f * ((ei - ee) / (A : ℚ)))
        ∧ ee ≤ w.eps ∧ w.eps ≤ ei
        ∧ ((A : ℚ) ≤ (f : ℚ) →
            ∃ w2, w.step g = Except.ok w2 ∧ w2.eps = ee)) := by
  have hd := decay_decrement_nonneg ei ee A hle hA
  set d : ℚ := (ei - ee) / (A : ℚ) with hdef
  have hclosed : ∀ n : ℕ, (fun y => max ee (y - d))^[n] ei = max ee (ei - n * d) :=
    iterate_max_sub_closed ee d ei hd hle
  have hlow : ∀ n : ℕ, ee ≤ max ee (ei - n * d) := fun n => le_max_left _ _
  have hhigh : ∀ n : ℕ, max ee (ei - n * d) ≤ ei := by
    intro n
    apply max_le hle
    have : 0 ≤ (n : ℚ) * d := mul_nonneg (Nat.cast_nonneg n) hd
    linarith
  have hmono : max ee (ei - ((f : ℚ) + 1) * d) ≤ max ee (ei - f * d) := by
    apply max_le_max le_rfl
    have : 0 ≤ (f : ℚ) * d + d - (f : ℚ) * d := by linarith
    nlinarith
  have hee_fix : ∀ n : ℕ, (fun y => max ee (y - d))^[n] ee = ee := by
    intro n
    rw [iterate_max_sub_closed ee d ee hd le_rfl n]
    apply max_eq_left
    have : 0 ≤ (n : ℚ) * d := mul_nonneg (Nat.cast_nonneg n) hd
    linarith
  refine ⟨⟨?_, ?_, ?_, ?_, ?_⟩, ?_⟩
  · rw [egreedy_fresh_step_eps, hclosed]
  · rw [egreedy_fresh_step_eps, hclosed]
    exact hlow f
  · rw [egreedy_fresh_step_eps, hclosed]
    exact hhigh f
  · rw [egreedy_fresh_step_eps, egreedy_fresh_step_eps, hclosed, hclosed]
    have := hmono
    push_cast
    push_cast at this
    exact this
  · intro hf
    rw [EGreedyWrapper.step_eps_iterate, EGreedyWrapper.step_eps_iterate]
    show (fun y => max ee (y - d))^[g] ((fun y => max ee (y - d))^[f] ei) = ee
    rw [hclosed f, decay_past_horizon ei ee A f hle hA hf]
    exact hee_fix g
  · refine ⟨_, OrnsteinUhlenbeckProcessWrapper.step_ok_iterate _ hA f, ?_, ?_, ?_, ?_⟩
    · show (fun y => max ee (y - d))^[f] ei = _
      rw [hclosed f]
    · show ee ≤ (fun y => max ee (y - d))^[f] ei
      rw [hclosed f]
      exact hlow f
    · show (fun y => max ee (y - d))^[f] ei ≤ ei
      rw [hclosed f]
      exact hhigh f
    · intro hf
      refine ⟨_, OrnsteinUhlenbeckProcessWrapper.step_ok_iterate _ hA g, ?_⟩
      show (fun y => max ee (y - d))^[g] ((fun y => max ee (y - d))^[f] ei) = ee
      rw [hclosed f, decay_past_horizon ei ee A f hle hA hf]
      exact hee_fix g

/-- Witness for `c1_step_linear_decay` at `eps_init = 1`, `eps_end = 0`,
`annealing_steps = 2`, `frames = 3` (past the horizon), one extra frame. -/
theorem c1_step_linear_decay_witness :
    (((⟨1, 0, 2, 1⟩ : EGreedyWrapper).step 3).eps
        = max 0 (1 - 3 * ((1 - 0) / ((2 : ℤ) : ℚ)))
      ∧ 0 ≤ ((⟨1, 0, 2, 1⟩ : EGreedyWrapper).step 3).eps
      ∧ ((⟨1, 0, 2, 1⟩ : EGreedyWrapper).step 3).eps ≤ 1
      ∧ ((⟨1, 0, 2, 1⟩ : EGreedyWrapper).step (3 + 1)).eps
          ≤ ((⟨1, 0, 2, 1⟩ : EGreedyWrapper).step 3).eps
      ∧ (((2 : ℤ) : ℚ) ≤ ((3 : ℕ) : ℚ) →
          ((((⟨1, 0, 2, 1⟩ : EGreedyWrapper).step 3).step 1).eps = 0)))
    ∧ (∃ w, (⟨1, 0, 2, 1, ["action", ouNoiseKey, ouStepsKey], true⟩ :
          OrnsteinUhlenbeckProcessWrapper).step 3 = Except.ok w
        ∧ w.eps = max 0 (1 - 3 * ((1 - 0) / ((2 : ℤ) : ℚ)))
        ∧ 0 ≤ w.eps ∧ w.eps ≤ 1
        ∧ (((2 : ℤ) : ℚ) ≤ ((3 : ℕ) : ℚ) →
            ∃ w2, w.step 1 = Except.ok w2 ∧ w2.eps = 0)) :=
  c1_step_linear_decay 1 0 2 3 1 (by norm_num) (by norm_num)

/-- Claim C5: constructing either wrapper with `eps_end > eps_init` raises
immediately (the epsilon-ordering error), while with `eps_end ≤ eps_init` the
epsilon-greedy constructor succeeds and the OU constructor never fails on the
epsilon-ordering check (its only other failure mode is the distinct
duplicate-output-keys error). -/
theorem c5_construction_eps_check (ei ee : ℚ) (A : ℤ) (ks : List String) (safe : Bool) :
    (ei < ee →
      EGreedyWrapper.init ei ee A = Except.error epsOrderMsg
        ∧ OrnsteinUhlenbeckProcessWrapper.init ks ei ee A safe = Except.error epsOrderMsg)
    ∧ (ee ≤ ei →
      EGreedyWrapper.init ei ee A = Except.ok ⟨ei, ee, A, ei⟩
        ∧ OrnsteinUhlenbeckProcessWrapper.init ks ei ee A safe
            ≠ Except.error epsOrderMsg) := by
  constructor
  · intro h
    constructor
    · rw [EGreedyWrapper.init, if_pos h]
    · rw [OrnsteinUhlenbeckProcessWrapper.init, if_pos h]
  · intro h
    have h' : ¬ ei < ee := not_lt.mpr h
    constructor
    · rw [EGreedyWrapper.init, if_neg h']
    · rw [OrnsteinUhlenbeckProcessWrapper.init, if_neg h']
      by_cases hnd : (ks ++ [ouNoiseKey, ouStepsKey]).Nodup
      · simp only [hnd, if_pos]
        intro hcontra
        exact Except.noConfusion hcontra
      · simp only [hnd, if_neg]
        intro hcontra
        have : "Got multiple identical output keys" = epsOrderMsg := by
          injection hcontra
        exact absurd this (by decide)

/-- Witness for `c5_construction_eps_check`: at `eps_init = 1, eps_end = 2`
construction fails, at `eps_init = 1, eps_end = 0` it passes the check. -/
theorem c5_construction_eps_check_witness :
    (EGreedyWrapper.init 1 2 1000 = Except.error epsOrderMsg
      ∧ OrnsteinUhlenbeckProcessWrapper.init ["action"] 1 2 1000 true
          = Except.error epsOrderMsg)
    ∧ (EGreedyWrapper.init 1 0 1000 = Except.ok ⟨1, 0, 1000, 1⟩
      ∧ OrnsteinUhlenbeckProcessWrapper.init ["action"] 1 0 1000 true
          ≠ Except.error epsOrderMsg) :=
  ⟨(c5_construction_eps_check 1 2 1000 ["action"] true).1 (by norm_num),
   (c5_construction_eps_check 1 0 1000 ["action"] true).2 (by norm_num)⟩

/-- Claim C4: when the exploration mode is `"random"` or unset and the
uniform draws lie in `[0, 1)`, `EGreedyWrapper.forward` returns exactly the
wrapped policy's action for every batch element when `eps = 0`, and replaces
every batch element's action with the freshly sampled `spec.rand` action when
`eps = 1` (the uniform draw always falls below 1). -/
theorem c4_egreedy_extremes {B A : Type} (w : EGreedyWrapper) (mode : Option String)
    (policyAction : B → A → ℚ) (u : B → ℚ) (specSample : B → A → ℚ)
    (hu : ∀ b, 0 ≤ u b ∧ u b < 1)
    (hm : mode = some "random" ∨ mode = none) :
    (w.eps = 0 → w.forward mode policyAction u specSample = policyAction)
    ∧ (w.eps = 1 → w.forward mode policyAction u specSample = specSample) := by
  constructor
  · intro he
    funext b a
    rw [EGreedyWrapper.forward, if_pos hm]
    have hcond : ¬ u b < w.eps := by
      rw [he]
      exact not_lt.mpr (hu b).1
    rw [if_neg hcond]
    ring
  · intro he
    funext b a
    rw [EGreedyWrapper.forward, if_pos hm]
    have hcond : u b < w.eps := by
      rw [he]
      exact (hu b).2
    rw [if_pos hcond]
    ring

/-- Witness for `c4_egreedy_extremes` on a single-element batch with a draw
of `1/2`: with `eps = 0` the policy's action `7` survives, with `eps = 1` the
resampled action `9` replaces it. -/
theorem c4_egreedy_extremes_witness :
    ((⟨1, 0, 10, 0⟩ : EGreedyWrapper).forward (some "random")
        (fun (_ : Unit) (_ : Unit) => (7 : ℚ)) (fun _ => (1 : ℚ) / 2)
        (fun _ _ => (9 : ℚ)) = fun _ _ => (7 : ℚ))
    ∧ ((⟨1, 0, 10, 1⟩ : EGreedyWrapper).forward (some "random")
        (fun (_ : Unit) (_ : Unit) => (7 : ℚ)) (fun _ => (1 : ℚ) / 2)
        (fun _ _ => (9 : ℚ)) = fun _ _ => (9 : ℚ)) :=
  ⟨(c4_egreedy_extremes ⟨1, 0, 10, 0⟩ (some "random") _ _ _
      (fun _ => ⟨by norm_num, by norm_num⟩) (Or.inl rfl)).1 rfl,
   (c4_egreedy_extremes ⟨1, 0, 10, 1⟩ (some "random") _ _ _
      (fun _ => ⟨by norm_num, by norm_num⟩) (Or.inl rfl)).2 rfl⟩

/-- Claim C2: with the default `x0 = 0`, one `add_sample` call on a record
already carrying the OU keys updates the stored noise per batch element and
action dimension to
`noise = prev_noise + theta * (mu - prev_noise) * dt
         + current_sigma(n_steps) * sqrt(dt) * draw`
(with `draw` the standard-normal sample), overwrites the action with
`action + eps * noise`, and increments the step counter. -/
theorem c2_ou_add_sample {B A : Type} (p : OrnsteinUhlenbeckProcess)
    (td : OUTensorDict B A) (eps : ℝ) (draw : B → A → ℝ)
    (prev : B → A → ℝ) (n : B → ℕ)
    (hx0 : p.x0 = 0) (hn : td.ouNoise = some prev) (hs : td.ouSteps = some n) :
    p.add_sample td eps draw = Except.ok
      { action := fun b a => td.action b a
          + eps * (prev b a + p.theta * (p.mu - prev b a) * p.dt
              + p.current_sigma (n b) * Real.sqrt p.dt * draw b a)
        ouNoise := some fun b a => prev b a + p.theta * (p.mu - prev b a) * p.dt
            + p.current_sigma (n b) * Real.sqrt p.dt * draw b a
        ouSteps := some fun b => n b + 1 } := by
  rw [OrnsteinUhlenbeckProcess.add_sample]
  simp only [hn, hs, Option.isNone_some, Bool.false_eq_true, if_false, hx0, add_zero,
    sub_zero]

/-- Witness for `c2_ou_add_sample`: a singleton batch, zero previous noise
and step count, default `x0`. -/
theorem c2_ou_add_sample_witness :
    (OrnsteinUhlenbeckProcess.init 0.15 0 0.2 (1 / 100) none none 1000 "action").add_sample
        (⟨fun (_ : Unit) (_ : Unit) => (3 : ℝ), some fun _ _ => 0, some fun _ => 0⟩ :
          OUTensorDict Unit Unit) 1 (fun _ _ => 2)
      = Except.ok
        { action := fun b a => (fun (_ : Unit) (_ : Unit) => (3 : ℝ)) b a
            + 1 * ((fun (_ : Unit) (_ : Unit) => (0 : ℝ)) b a
                + (OrnsteinUhlenbeckProcess.init 0.15 0 0.2 (1 / 100) none none 1000
                    "action").theta
                  * ((OrnsteinUhlenbeckProcess.init 0.15 0 0.2 (1 / 100) none none 1000
                      "action").mu - (fun (_ : Unit) (_ : Unit) => (0 : ℝ)) b a)
                  * (OrnsteinUhlenbeckProcess.init 0.15 0 0.2 (1 / 100) none none 1000
                      "action").dt
                + (OrnsteinUhlenbeckProcess.init 0.15 0 0.2 (1 / 100) none none 1000
                      "action").current_sigma ((fun (_ : Unit) => (0 : ℕ)) b)
                  * Real.sqrt (OrnsteinUhlenbeckProcess.init 0.15 0 0.2 (1 / 100) none none
                      1000 "action").dt * (fun (_ : Unit) (_ : Unit) => (2 : ℝ)) b a)
          ouNoise := some fun b a => (fun (_ : Unit) (_ : Unit) => (0 : ℝ)) b a
            + (OrnsteinUhlenbeckProcess.init 0.15 0 0.2 (1 / 100) none none 1000
                "action").theta
              * ((OrnsteinUhlenbeckProcess.init 0.15 0 0.2 (1 / 100) none none 1000
                  "action").mu - (fun (_ : Unit) (_ : Unit) => (0 : ℝ)) b a)
              * (OrnsteinUhlenbeckProcess.init 0.15 0 0.2 (1 / 100) none none 1000
                  "action").dt
            + (OrnsteinUhlenbeckProcess.init 0.15 0 0.2 (1 / 100) none none 1000
                  "action").current_sigma ((fun (_ : Unit) => (0 : ℕ)) b)
              * Real.sqrt (OrnsteinUhlenbeckProcess.init 0.15 0 0.2 (1 / 100) none none
                  1000 "action").dt * (fun (_ : Unit) (_ : Unit) => (2 : ℝ)) b a
          ouSteps := some fun b => (fun (_ : Unit) => (0 : ℕ)) b + 1 } :=
  c2_ou_add_sample _ _ 1 _ _ _ rfl rfl rfl

/-- Claim C6: on a record lacking the OU bookkeeping keys, the first
`add_sample` lazily initialises the step counter to zero and increments it to
one; a second call on the same record leaves it at exactly two. -/
theorem c6_ou_lazy_step_counter {B A : Type} (p : OrnsteinUhlenbeckProcess)
    (td : OUTensorDict B A) (e1 e2 : ℝ) (d1 d2 : B → A → ℝ)
    (hn : td.ouNoise = none) (hs : td.ouSteps = none) :
    ∃ td1 td2,
      p.add_sample td e1 d1 = Except.ok td1
        ∧ td1.ouSteps = some (fun _ => 1)
        ∧ td1.ouNoise.isSome = true
        ∧ p.add_sample td1 e2 d2 = Except.ok td2
        ∧ td2.ouSteps = some (fun _ => 2) := by
  rcases td with ⟨act, no, st⟩
  dsimp only at hn hs
  subst hn
  subst hs
  exact ⟨_, _, rfl, rfl, rfl, rfl, rfl⟩

/-- Witness for `c6_ou_lazy_step_counter` on a singleton batch and fresh
record. -/
theorem c6_ou_lazy_step_counter_witness :
    ∃ td1 td2,
      (OrnsteinUhlenbeckProcess.init 0.15 0 0.2 (1 / 100) none none 1000
          "action").add_sample
          (⟨fun (_ : Unit) (_ : Unit) => (3 : ℝ), none, none⟩ : OUTensorDict Unit Unit)
          1 (fun _ _ => 2) = Except.ok td1
        ∧ td1.ouSteps = some (fun _ => 1)
        ∧ td1.ouNoise.isSome = true
        ∧ (OrnsteinUhlenbeckProcess.init 0.15 0 0.2 (1 / 100) none none 1000
            "action").add_sample td1 1 (fun _ _ => 5) = Except.ok td2
        ∧ td2.ouSteps = some (fun _ => 2) :=
  c6_ou_lazy_step_counter _ _ 1 1 _ _ rfl rfl

/-- Counterexample for claim C3 as stated: with `sigma = 0.2`,
`n_steps_annealing = 1000` and `sigma_min` NOT given, the schedule is the
constant `sigma` (`m = 0`), so `current_sigma` is not strictly decreasing
between `0` and `n_steps_annealing`: already `current_sigma(1)` fails to drop
below `current_sigma(0)`. -/
theorem c3_sigma_schedule_counterexample :
    ¬ ((OrnsteinUhlenbeckProcess.init 0.15 0 0.2 (1 / 100) none none 1000
          "action").current_sigma 1
        < (OrnsteinUhlenbeckProcess.init 0.15 0 0.2 (1 / 100) none none 1000
          "action").current_sigma 0) := by
  show ¬ (max (0.2 : ℝ) (0 * ((1 : ℕ) : ℝ) + 0.2) < max 0.2 (0 * ((0 : ℕ) : ℝ) + 0.2))
  norm_num

/-- Claim C3 (amended): for `n_steps_annealing > 0`, when `sigma_min` is
given with `sigma_min < sigma` the schedule satisfies
`current_sigma(0) = sigma`, `current_sigma(n_steps_annealing) = sigma_min`,
and is strictly decreasing for step counts in `[0, n_steps_annealing]`; when
`sigma_min` is not given, `current_sigma` is the constant `sigma`. -/
theorem c3_sigma_schedule_amended (theta mu sigma dt : ℝ) (x0 : Option ℝ) (s : ℝ)
    (A : ℤ) (key : String) (hA : 0 < A) :
    (s < sigma →
      (OrnsteinUhlenbeckProcess.init theta mu sigma dt x0 (some s) A
          key).current_sigma 0 = sigma
        ∧ (∀ n : ℕ, (n : ℤ) = A →
            (OrnsteinUhlenbeckProcess.init theta mu sigma dt x0 (some s) A
              key).current_sigma n = s)
        ∧ (∀ n1 n2 : ℕ, n1 < n2 → (n2 : ℤ) ≤ A →
            (OrnsteinUhlenbeckProcess.init theta mu sigma dt x0 (some s) A
                key).current_sigma n2
              < (OrnsteinUhlenbeckProcess.init theta mu sigma dt x0 (some s) A
                key).current_sigma n1))
    ∧ (∀ n : ℕ,
        (OrnsteinUhlenbeckProcess.init theta mu sigma dt x0 none A
          key).current_sigma n = sigma) := by
  have hApos : (0 : ℝ) < (A : ℝ) := by exact_mod_cast hA
  have hA0 : (A : ℝ) ≠ 0 := ne_of_gt hApos
  constructor
  · intro hss
    have hm : (OrnsteinUhlenbeckProcess.init theta mu sigma dt x0 (some s) A key).m
        = -(sigma - s) / (A : ℝ) := rfl
    have hc : (OrnsteinUhlenbeckProcess.init theta mu sigma dt x0 (some s) A key).c
        = sigma := rfl
    have hsm : (OrnsteinUhlenbeckProcess.init theta mu sigma dt x0 (some s) A
        key).sigma_min = s := rfl
    have hmneg : -(sigma - s) / (A : ℝ) < 0 := by
      rw [neg_div]
      exact neg_neg_of_pos (div_pos (by linarith) hApos)
    have hmA : -(sigma - s) / (A : ℝ) * (A : ℝ) + sigma = s := by
      field_simp
    have hline : ∀ n : ℕ, (n : ℤ) ≤ A →
        s ≤ -(sigma - s) / (A : ℝ) * (n : ℝ) + sigma := by
      intro n hn
      have hncast : (n : ℝ) ≤ (A : ℝ) := by exact_mod_cast hn
      have := mul_le_mul_of_nonpos_left hncast hmneg.le
      linarith
    refine ⟨?_, ?_, ?_⟩
    · rw [OrnsteinUhlenbeckProcess.current_sigma, hm, hc, hsm]
      push_cast
      rw [mul_zero, zero_add]
      exact max_eq_right hss.le
    · intro n hn
      have hncast : (n : ℝ) = (A : ℝ) := by exact_mod_cast hn
      rw [OrnsteinUhlenbeckProcess.current_sigma, hm, hc, hsm, hncast, hmA, max_self]
    · intro n1 n2 h12 h2A
      have h1A : (n1 : ℤ) ≤ A := le_trans (by exact_mod_cast h12.le) h2A
      rw [OrnsteinUhlenbeckProcess.current_sigma, OrnsteinUhlenbeckProcess.current_sigma,
        hm, hc, hsm, max_eq_right (hline n2 h2A), max_eq_right (hline n1 h1A)]
      have hcast : (n1 : ℝ) < (n2 : ℝ) := by exact_mod_cast h12
      have := mul_lt_mul_of_neg_left hcast hmneg
      linarith
  · intro n
    show max sigma (0 * ((n : ℕ) : ℝ) + sigma) = sigma
    rw [zero_mul, zero_add, max_self]

/-- Witness for `c3_sigma_schedule_amended` at `sigma = 2`, `sigma_min = 1`,
`n_steps_annealing = 2`. -/
theorem c3_sigma_schedule_amended_witness :
    ((1 : ℝ) < 2 →
      (OrnsteinUhlenbeckProcess.init 0.15 0 2 (1 / 100) none (some 1) 2
          "action").current_sigma 0 = 2
        ∧ (∀ n : ℕ, (n : ℤ) = 2 →
            (OrnsteinUhlenbeckProcess.init 0.15 0 2 (1 / 100) none (some 1) 2
              "action").current_sigma n = 1)
        ∧ (∀ n1 n2 : ℕ, n1 < n2 → (n2 : ℤ) ≤ 2 →
            (OrnsteinUhlenbeckProcess.init 0.15 0 2 (1 / 100) none (some 1) 2
                "action").current_sigma n2
              < (OrnsteinUhlenbeckProcess.init 0.15 0 2 (1 / 100) none (some 1) 2
                "action").current_sigma n1))
    ∧ (∀ n : ℕ,
        (OrnsteinUhlenbeckProcess.init 0.15 0 2 (1 / 100) none none 2
          "action").current_sigma n = 2) :=
  c3_sigma_schedule_amended 0.15 0 2 (1 / 100) none 1 2 "action" (by norm_num)

/-- On a frame of valid shape (2-D, or 3-D with last dimension 3),
`_apply` succeeds: it increments `count`, appends the converted frame on
buffering steps, and returns the observation. -/
lemma VideoRecorder.apply_valid (r : VideoRecorder) (o : Observation)
    (hv : o.shape.length = 2 ∨ (o.shape.length = 3 ∧ o.shape.getLast? = some 3)) :
    r._apply o = Except.ok
      ({ r with
          count := r.count + 1
          obs := if (r.count + 1) % r.skip = 0 then
              r.obs ++ [if o.shape.length = 2 then StoredFrame.unsqueezed o
                else StoredFrame.permuted o]
            else r.obs }, o) := by
  rcases hv with h2 | ⟨h3, hlast⟩
  · have hne : o.shape ≠ [] := by
      intro hnil
      rw [hnil] at h2
      exact absurd h2 (by decide)
    obtain ⟨last, hlast⟩ := Option.isSome_iff_exists.mp
      (List.getLast?_isSome.mpr hne)
    rw [VideoRecorder._apply, hlast]
    dsimp only
    have hcond : ¬ ¬ (last = 3 ∨ o.shape.length = 2) := not_not.mpr (Or.inr h2)
    rw [if_neg hcond]
    by_cases hmod : (r.count + 1) % r.skip = 0
    · rw [if_pos hmod, if_pos h2]
      simp only [hmod, if_pos, h2]
    · rw [if_neg hmod]
      simp only [hmod, if_neg, if_false]
  · rw [VideoRecorder._apply, hlast]
    dsimp only
    have hcond : ¬ ¬ ((3 : ℕ) = 3 ∨ o.shape.length = 2) := not_not.mpr (Or.inl rfl)
    rw [if_neg hcond]
    have h2 : o.shape.length ≠ 2 := by
      rw [h3]
      decide
    by_cases hmod : (r.count + 1) % r.skip = 0
    · rw [if_pos hmod, if_neg h2, if_neg (by rw [h3]; exact fun h => h rfl),
        if_neg (fun h => h rfl)]
      simp [hmod, h2]
    · rw [if_neg hmod]
      simp only [hmod, if_neg, if_false]

/-- Closed form for feeding `N` valid frames with `skip = 2`: the counter
advances by `N` and the buffer gains one frame per counter value divisible
by 2. -/
lemma VideoRecorder.feed_closed (o : Observation)
    (hv : o.shape.length = 2 ∨ (o.shape.length = 3 ∧ o.shape.getLast? = some 3)) :
    ∀ (N : ℕ) (r : VideoRecorder), r.skip = 2 →
      ∃ r2, r.feed o N = Except.ok r2
        ∧ r2.count = r.count + N
        ∧ r2.obs.length = r.obs.length + ((r.count + N) / 2 - r.count / 2)
        ∧ r2.skip = 2 ∧ r2.tag = r.tag ∧ r2.iter = r.iter := by
  intro N
  induction N with
  | zero =>
    intro r hskip
    exact ⟨r, rfl, by omega, by omega, hskip, rfl, rfl⟩
  | succ n ih =>
    intro r hskip
    obtain ⟨it, sk, tg, ct, ob⟩ := r
    dsimp only at hskip
    subst hskip
    have happ := VideoRecorder.apply_valid ⟨it, 2, tg, ct, ob⟩ o hv
    obtain ⟨r2, hfeed, hcount, hlen, hs2, ht2, hi2⟩ :=
      ih { iter := it, skip := 2, tag := tg, count := ct + 1,
           obs := if (ct + 1) % 2 = 0 then
               ob ++ [if o.shape.length = 2 then StoredFrame.unsqueezed o
                 else StoredFrame.permuted o]
             else ob } rfl
    refine ⟨r2, ?_, ?_, ?_, hs2, ht2, hi2⟩
    · rw [VideoRecorder.feed, happ]
      exact hfeed
    · dsimp only at hcount ⊢
      omega
    · dsimp only at hlen ⊢
      by_cases hmod : (ct + 1) % 2 = 0
      · rw [if_pos hmod] at hlen
        rw [List.length_append] at hlen
        simp only [List.length_cons, List.length_nil] at hlen
        omega
      · rw [if_neg hmod] at hlen
        omega

/-- Counterexample for claim C7 as stated: after a single valid frame with
`skip = 2` the buffer is empty, and `dump()` does not clear-and-reset — it
raises on the empty `torch.stack`. -/
theorem c7_video_recorder_counterexample :
    ((VideoRecorder.init "demo" 2).feed ⟨[4, 4], 0⟩ 1).bind (fun r => r.dump none)
      = Except.error "stack expects a non-empty TensorList" := rfl

/-- Claim C7 (amended): feeding `N` valid frames to a fresh `VideoRecorder`
with `skip = 2` buffers exactly `⌊N / 2⌋` frames and advances the counter to
`N`; when `N ≥ 2` (so the buffer is non-empty) `dump()` succeeds and resets
the buffer to empty and the counter to zero, while for `N < 2` `dump()`
raises on the empty buffer. -/
theorem c7_video_recorder (t : String) (o : Observation) (N : ℕ)
    (hv : o.shape.length = 2 ∨ (o.shape.length = 3 ∧ o.shape.getLast? = some 3)) :
    ∃ r, (VideoRecorder.init t 2).feed o N = Except.ok r
      ∧ r.obs.length = N / 2
      ∧ r.count = N
      ∧ (2 ≤ N → ∃ r2 d, r.dump none = Except.ok (r2, d)
          ∧ r2.obs = [] ∧ r2.count = 0 ∧ d.vid = r.obs ∧ d.tag = t)
      ∧ (N < 2 → r.dump none = Except.error "stack expects a non-empty TensorList") := by
  obtain ⟨r, hfeed, hcount, hlen, hskip, htag, hiter⟩ :=
    VideoRecorder.feed_closed o hv N (VideoRecorder.init t 2) rfl
  have hlen' : r.obs.length = N / 2 := by
    simpa [VideoRecorder.init] using hlen
  have hcount' : r.count = N := by
    simpa [VideoRecorder.init] using hcount
  refine ⟨r, hfeed, hlen', hcount', ?_, ?_⟩
  · intro hN
    have hne : r.obs ≠ [] := by
      intro hnil
      rw [hnil] at hlen'
      simp only [List.length_nil] at hlen'
      omega
    rcases hobs : r.obs with _ | ⟨x, rest⟩
    · exact absurd hobs hne
    · refine ⟨{ r with iter := r.iter + 1, count := 0, obs := [] },
        ⟨r.tag, x :: rest, r.iter⟩, ?_, rfl, rfl, ?_, ?_⟩
      · rw [VideoRecorder.dump, hobs]
      · rfl
      · show r.tag = t
        simpa [VideoRecorder.init] using htag
  · intro hN
    have hnil : r.obs = [] := by
      rw [← List.length_eq_zero]
      omega
    rw [VideoRecorder.dump, hnil]

/-- Witness for `c7_video_recorder` at `N = 5` with a 2-D frame. -/
theorem c7_video_recorder_witness :
    ∃ r, (VideoRecorder.init "demo" 2).feed ⟨[4, 4], 0⟩ 5 = Except.ok r
      ∧ r.obs.length = 5 / 2
      ∧ r.count = 5
      ∧ (2 ≤ 5 → ∃ r2 d, r.dump none = Except.ok (r2, d)
          ∧ r2.obs = [] ∧ r2.count = 0 ∧ d.vid = r.obs ∧ d.tag = "demo")
      ∧ (5 < 2 → r.dump none = Except.error "stack expects a non-empty TensorList") :=
  c7_video_recorder "demo" ⟨[4, 4], 0⟩ 5 (Or.inl rfl)

/-- Claim C9: a frame that is neither 2-dimensional nor has a size-3 last
dimension makes `_apply` raise on that very call, whatever the recorder's
count and skip (the scalar frame raises `IndexError` on `shape[-1]`, all
others the shape `RuntimeError`); a 2-D grayscale or 3-channel (`[H, W, 3]`)
frame never triggers a shape-validation error. -/
theorem c9_apply_shape_validation :
    (∀ (r : VideoRecorder) (o : Observation),
        ¬ (o.shape.getLast? = some 3 ∨ o.shape.length = 2) →
        ∃ e, r._apply o = Except.error e)
    ∧ (∀ (r : VideoRecorder) (o : Observation), 0 < r.skip →
        (o.shape.length = 2 ∨ (o.shape.length = 3 ∧ o.shape.getLast? = some 3)) →
        ∃ res, r._apply o = Except.ok res) := by
  constructor
  · intro r o h
    rcases hl : o.shape.getLast? with _ | last
    · refine ⟨"IndexError: index -1 out of range", ?_⟩
      rw [VideoRecorder._apply, hl]
    · refine ⟨"Invalid observation shape", ?_⟩
      rw [VideoRecorder._apply, hl]
      dsimp only
      rw [if_pos]
      intro hcontra
      apply h
      rcases hcontra with h3 | h2
      · exact Or.inl (by rw [hl, h3])
      · exact Or.inr h2
  · intro r o _ hv
    exact ⟨_, VideoRecorder.apply_valid r o hv⟩

/-- Witness for `c9_apply_shape_validation`: a 3-D frame with last dimension
4 raises, a 2-D frame passes. -/
theorem c9_apply_shape_validation_witness :
    (∃ e, (VideoRecorder.init "demo" 2)._apply ⟨[5, 5, 4], 0⟩ = Except.error e)
    ∧ (∃ res, (VideoRecorder.init "demo" 2)._apply ⟨[4, 4], 0⟩ = Except.ok res) :=
  ⟨c9_apply_shape_validation.1 (VideoRecorder.init "demo" 2) ⟨[5, 5, 4], 0⟩ (by decide),
   c9_apply_shape_validation.2 (VideoRecorder.init "demo" 2) ⟨[4, 4], 0⟩ (by decide)
     (Or.inl rfl)⟩

/-- Claim C10: whenever `_apply` succeeds it hands back the input observation
unchanged; the channel-first/8-bit conversion affects only the copy appended
to the buffer (the buffer either stays as it was or gains exactly one
converted frame). -/
theorem c10_apply_returns_input (r : VideoRecorder) (o : Observation)
    (res : VideoRecorder × Observation) (h : r._apply o = Except.ok res) :
    res.2 = o
      ∧ (res.1.obs = r.obs
        ∨ res.1.obs = r.obs ++ [StoredFrame.unsqueezed o]
        ∨ res.1.obs = r.obs ++ [StoredFrame.permuted o]) := by
  rw [VideoRecorder._apply] at h
  rcases hl : o.shape.getLast? with _ | last
  · rw [hl] at h
    exact absurd h (by simp)
  · rw [hl] at h
    dsimp only at h
    by_cases hc : ¬ (last = 3 ∨ o.shape.length = 2)
    · rw [if_pos hc] at h
      exact absurd h (by simp)
    · rw [if_neg hc] at h
      by_cases hmod : (r.count + 1) % r.skip = 0
      · rw [if_pos hmod] at h
        by_cases h2 : o.shape.length = 2
        · rw [if_pos h2] at h
          rcases h with ⟨⟩
          exact ⟨rfl, Or.inr (Or.inl rfl)⟩
        · rw [if_neg h2] at h
          by_cases h3 : o.shape.length ≠ 3
          · rw [if_pos h3] at h
            exact absurd h (by simp)
          · rw [if_neg h3] at h
            by_cases h4 : last ≠ 3
            · rw [if_pos h4] at h
              exact absurd h (by simp)
            · rw [if_neg h4] at h
              rcases h with ⟨⟩
              exact ⟨rfl, Or.inr (Or.inr rfl)⟩
      · rw [if_neg hmod] at h
        rcases h with ⟨⟩
        exact ⟨rfl, Or.inl rfl⟩

/-- Witness for `c10_apply_returns_input` on a buffering step (`count`
becomes 2 with `skip = 2`, so the converted copy is appended while the
returned observation is the unmodified input). -/
theorem c10_apply_returns_input_witness :
    ((⟨0, 2, "demo", 2, [StoredFrame.unsqueezed ⟨[4, 4], 7⟩]⟩,
        (⟨[4, 4], 7⟩ : Observation)) :
          VideoRecorder × Observation).2 = (⟨[4, 4], 7⟩ : Observation)
      ∧ (((⟨0, 2, "demo", 2, [StoredFrame.unsqueezed ⟨[4, 4], 7⟩]⟩,
            (⟨[4, 4], 7⟩ : Observation)) : VideoRecorder × Observation).1.obs
            = (⟨0, 2, "demo", 1, []⟩ : VideoRecorder).obs
        ∨ ((⟨0, 2, "demo", 2, [StoredFrame.unsqueezed ⟨[4, 4], 7⟩]⟩,
            (⟨[4, 4], 7⟩ : Observation)) : VideoRecorder × Observation).1.obs
            = (⟨0, 2, "demo", 1, []⟩ : VideoRecorder).obs
                ++ [StoredFrame.unsqueezed ⟨[4, 4], 7⟩]
        ∨ ((⟨0, 2, "demo", 2, [StoredFrame.unsqueezed ⟨[4, 4], 7⟩]⟩,
            (⟨[4, 4], 7⟩ : Observation)) : VideoRecorder × Observation).1.obs
            = (⟨0, 2, "demo", 1, []⟩ : VideoRecorder).obs
                ++ [StoredFrame.permuted ⟨[4, 4], 7⟩]) :=
  c10_apply_returns_input ⟨0, 2, "demo", 1, []⟩ ⟨[4, 4], 7⟩
    (⟨0, 2, "demo", 2, [StoredFrame.unsqueezed ⟨[4, 4], 7⟩]⟩, ⟨[4, 4], 7⟩) rfl

/-- Claim C8 (code bug): `TensorDictRecorder.dump` reads `self.tag`, but the
constructor only ever stores the file name stem in `self.out_file_base` (as
its own docstring describes) and neither it nor the `Transform` base class
assigns `tag` — so even with `skip_reset = True` and a non-empty buffer
(here two snapshots buffered with `skip = 1`), `dump()` raises
`AttributeError` instead of dropping the first snapshot, stacking the rest
and persisting them. -/
theorem c8_dump_attribute_error :
    ((((TensorDictRecorder.init "out_file" true 1 [])._call 10).1._call 11).1).dump none
      = Except.error "AttributeError: TensorDictRecorder object has no attribute tag" :=
  rfl
